import Mathlib

/-!
Shallow embedding of the Relume component scraper (`src/scraper.ts`).

Strings are modelled as `List Char` (`Str`). JavaScript's ASCII-relevant
string operations (`toLowerCase`, `replace(/\s+/g,'-')`, `split('-')`,
`charAt(0).toUpperCase() + slice(1)`, `replace(/[^a-z0-9-]/gi,'')`) are
translated character by character.  The external browser-automation
collaborator, the filesystem and the clock are modelled by explicit
oracles; every observable effect of the orchestrator is recorded in an
event trace.
-/

namespace Scraper

abbrev Str := List Char

/-- ASCII whitespace, the fragment of the JS `\s` class relevant to the
inputs considered here (space, tab, line feed, vertical tab, form feed,
carriage return). -/
def isWsChar (c : Char) : Bool :=
  c = ' ' || c = '\t' || c = '\n' || c = '\r' || c = '\x0b' || c = '\x0c'

/-- The character class `[a-z]`. -/
def isLowerAlpha (c : Char) : Bool :=
  97 ≤ c.toNat && c.toNat ≤ 122

/-- The character class `[A-Z]`. -/
def isUpperAlpha (c : Char) : Bool :=
  65 ≤ c.toNat && c.toNat ≤ 90

/-- The character class `[0-9]`. -/
def isDigitChar (c : Char) : Bool :=
  48 ≤ c.toNat && c.toNat ≤ 57

/-- `name.replace(/[^a-z0-9-]/gi, '')` keeps exactly the characters
matching `[A-Za-z0-9-]` (the `i` flag makes the class case-insensitive). -/
def allowedInFilename (c : Char) : Bool :=
  isLowerAlpha c || isUpperAlpha c || isDigitChar c || c = '-'

/-- `sanitizeFilename` from `src/scraper.ts` (lines 117-119):
`name.replace(/[^a-z0-9-]/gi, '')`. -/
def sanitizeFilename (name : Str) : Str :=
  name.filter allowedInFilename

/-- JS `String.prototype.toLowerCase` on ASCII input: lower-case every
character. -/
def jsLower (s : Str) : Str :=
  s.map Char.toLower

/-- JS `s.replace(/\s+/g, '-')`: every maximal run of whitespace becomes a
single hyphen (the hyphen is emitted at the last character of the run). -/
def replaceWsRuns : Str → Str
  | [] => []
  | [c] => if isWsChar c then ['-'] else [c]
  | c :: c' :: cs =>
    if isWsChar c then
      if isWsChar c' then replaceWsRuns (c' :: cs)
      else '-' :: replaceWsRuns (c' :: cs)
    else c :: replaceWsRuns (c' :: cs)

/-- JS `s.replace(/\s+/g, '')`: remove all whitespace. -/
def removeWs (s : Str) : Str :=
  s.filter (fun c => !isWsChar c)

/-- `nameToSlug` from `src/scraper.ts` (lines 131-134):
`name.toLowerCase().replace(/\s+/g, '-')`. -/
def nameToSlug (name : Str) : Str :=
  replaceWsRuns (jsLower name)

/-- JS `String.prototype.split` with a one-character separator: empty
pieces between consecutive separators are kept, and `"".split(sep)`
yields `[""]`. -/
def splitChar (sep : Char) : Str → List Str
  | [] => [[]]
  | c :: cs =>
    if c = sep then [] :: splitChar sep cs
    else
      match splitChar sep cs with
      | [] => [[c]]
      | p :: ps => (c :: p) :: ps

/-- One piece of `toPascalCase`:
`part.charAt(0).toUpperCase() + part.slice(1)` (the empty part maps to
the empty string). -/
def pascalPart : Str → Str
  | [] => []
  | c :: cs => Char.toUpper c :: cs

/-- `toPascalCase` from `src/scraper.ts` (lines 122-128):
`slug.split('-').map(part => part.charAt(0).toUpperCase() + part.slice(1)).join('')`. -/
def toPascalCase (slug : Str) : Str :=
  ((splitChar '-' slug).map pascalPart).flatten

/-- A capitalized word: an upper-case ASCII letter followed by lower-case
ASCII letters. -/
def capWord : Str → Bool
  | [] => false
  | c :: cs => isUpperAlpha c && cs.all isLowerAlpha

/-- A non-empty string of ASCII digits. -/
def digitWord (s : Str) : Bool :=
  !s.isEmpty && s.all isDigitChar

/-- Interleave a separator between pieces (`["Navbar","1"]` with `" "`
gives `"Navbar 1"`). -/
def joinSep (sep : Str) : List Str → Str
  | [] => []
  | [x] => x
  | x :: xs => x ++ sep ++ joinSep sep xs

/-- Literal strings of the source as `Str`. -/
def strL (s : String) : Str := s.toList

def BASE_URL : Str := strL "https://www.relume.io"
def LISTING_URL : Str := BASE_URL ++ strL "/react/components"
def DELAY_MS : Nat := 2000
def COMPONENTS_DIR : Str := strL "./components"

/-- The `ComponentInfo` interface (`src/scraper.ts` lines 16-27).  The
optional `metadata` field is never read by the orchestrator, so it is
omitted from the model. -/
structure ComponentInfo where
  name : Str
  slug : Str
  category : Str
  subcategory : Str
  url : Str
deriving DecidableEq, Repr

/-- The `Catalog` interface (lines 29-33).  `discoveredAt` is a wall-clock
timestamp and is not modelled. -/
structure Catalog where
  totalComponents : Nat
  components : List ComponentInfo
deriving DecidableEq, Repr

/-- The `Progress` interface (lines 35-39).  `lastUpdated` is a wall-clock
timestamp and is not modelled. -/
structure Progress where
  completed : List Str
  failed : List Str
deriving DecidableEq, Repr

/-- `loadCatalog` (lines 72-83): `try { JSON.parse(readFile) } catch {
fresh empty catalog }`.  The file read together with the JSON parse is
modelled as an `Except` result, since the `catch` treats every failure
(missing file, unreadable file, malformed JSON) alike. -/
def loadCatalog (readResult : Except String Catalog) : Catalog :=
  match readResult with
  | .ok c => c
  | .error _ => { totalComponents := 0, components := [] }

/-- `loadProgress` (lines 92-103), with the same `try`/`catch` shape as
`loadCatalog`. -/
def loadProgress (readResult : Except String Progress) : Progress :=
  match readResult with
  | .ok p => p
  | .error _ => { completed := [], failed := [] }

/-- Observable effects of a run, in order of occurrence.  Filesystem and
browser operations carry the success of the attempt where the source can
observe it (an exception). -/
inductive Event where
  | browser (cmd : Str) (ok : Bool)
  | delay (ms : Nat)
  | fsMkdir (dir : Str) (ok : Bool)
  | fsWrite (file : Str) (ok : Bool)
  | fsCopy (src dst : Str) (ok : Bool)
  | saveProgress (p : Progress)
  | saveCatalog (c : Catalog)
  | printErr (msg : Str)
  | printUsage
  | exitCode (n : Nat)
deriving DecidableEq, Repr

/-- Oracle for the per-item effects of the download loop (steps a-i of
the spec).  Browser steps stand for the corresponding `browserCommand`
calls; for the two `extract` steps the oracle's verdict also covers the
embedded-JSON match and parse of the result (`codeOk`, `metaOk`), since
one `try` boundary treats all of those failures alike.  `shot` returns
the temporary screenshot path on success. -/
structure Collab where
  navOk : ComponentInfo → Bool
  reactOk : ComponentInfo → Bool
  codeOk : ComponentInfo → Bool
  metaOk : ComponentInfo → Bool
  imageOk : ComponentInfo → Bool
  shot : ComponentInfo → Option Str
  mkdirOk : ComponentInfo → Bool
  writeOk : ComponentInfo → Bool
  copyOk : ComponentInfo → Bool

def cmdNavigate (url : Str) : Str := strL "browser navigate " ++ url
def cmdClickReact : Str := strL "browser act click the React tab"
def cmdExtractCode : Str := strL "browser extract code"
def cmdExtractMeta : Str := strL "browser extract metadata"
def cmdClickImage : Str := strL "browser act click the Image tab"
def cmdScreenshot : Str := strL "browser screenshot"
def cmdClose : Str := strL "browser close"

/-- Line 280: the item URL is re-derived from the slug. -/
def componentUrl (c : ComponentInfo) : Str :=
  BASE_URL ++ strL "/react-components/" ++ c.slug

/-- Lines 318-322: `path.join(COMPONENTS_DIR, sanitize(category.toLowerCase()),
sanitize(subcategory.toLowerCase()))`. -/
def categoryDir (c : ComponentInfo) : Str :=
  COMPONENTS_DIR ++ strL "/" ++ sanitizeFilename (jsLower c.category)
    ++ strL "/" ++ sanitizeFilename (jsLower c.subcategory)

/-- Line 327: `path.join(categoryDir, toPascalCase(slug) + ".tsx")`. -/
def componentPath (c : ComponentInfo) : Str :=
  categoryDir c ++ strL "/" ++ toPascalCase c.slug ++ strL ".tsx"

/-- Line 343: `path.join(categoryDir, toPascalCase(slug) + ".png")`. -/
def imagePath (c : ComponentInfo) : Str :=
  categoryDir c ++ strL "/" ++ toPascalCase c.slug ++ strL ".png"

/-- The body of the per-item `try` block (lines 278-345): steps a-i of
the spec.  Returns whether the item succeeded, together with the events
of the attempt.  The first failing step short-circuits the rest. -/
def processItem (o : Collab) (c : ComponentInfo) : Bool × List Event :=
  let t1 := [Event.browser (cmdNavigate (componentUrl c)) (o.navOk c)]
  if o.navOk c = false then (false, t1) else
  let t2 := t1 ++ [Event.delay 2000, Event.browser cmdClickReact (o.reactOk c)]
  if o.reactOk c = false then (false, t2) else
  let t3 := t2 ++ [Event.delay 3000, Event.browser cmdExtractCode (o.codeOk c)]
  if o.codeOk c = false then (false, t3) else
  let t4 := t3 ++ [Event.browser cmdExtractMeta (o.metaOk c)]
  if o.metaOk c = false then (false, t4) else
  let t5 := t4 ++ [Event.browser cmdClickImage (o.imageOk c)]
  if o.imageOk c = false then (false, t5) else
  let t6 := t5 ++ [Event.delay 1000,
    Event.browser cmdScreenshot (o.shot c).isSome]
  match o.shot c with
  | none => (false, t6)
  | some shotPath =>
    let t7 := t6 ++ [Event.fsMkdir (categoryDir c) (o.mkdirOk c)]
    if o.mkdirOk c = false then (false, t7) else
    let t8 := t7 ++ [Event.fsWrite (componentPath c) (o.writeOk c)]
    if o.writeOk c = false then (false, t8) else
    let t9 := t8 ++ [Event.fsCopy shotPath (imagePath c) (o.copyOk c)]
    if o.copyOk c = false then (false, t9) else
    (true, t9)

/-- Whether the per-item attempt reaches the success path. -/
def itemSucceeds (o : Collab) (c : ComponentInfo) : Bool :=
  (processItem o c).1

/-- One iteration of the download loop (lines 274-362): run the item;
on success push the slug onto `completed`, persist, and - only inside
the `try`, hence only on success - wait `DELAY_MS` when the item is not
the last remaining one; on failure the `catch` pushes the slug onto
`failed` and persists.  The persistence write itself is modelled as
always succeeding. -/
def downloadStep (o : Collab) (c : ComponentInfo) (isLast : Bool)
    (p : Progress) : Progress × List Event :=
  let r := processItem o c
  if r.1 then
    let p' : Progress :=
      { completed := p.completed ++ [c.slug], failed := p.failed }
    if isLast then (p', r.2 ++ [Event.saveProgress p'])
    else (p', r.2 ++ [Event.saveProgress p', Event.delay DELAY_MS])
  else
    let p' : Progress :=
      { completed := p.completed, failed := p.failed ++ [c.slug] }
    (p', r.2 ++ [Event.saveProgress p'])

/-- The `for` loop over `remaining` (lines 274-362). -/
def downloadLoop (o : Collab) (p : Progress) :
    List ComponentInfo → Progress × List Event
  | [] => (p, [])
  | c :: rest =>
    let s := downloadStep o c rest.isEmpty p
    let r := downloadLoop o s.1 rest
    (r.1, s.2 ++ r.2)

/-- Line 266-268: the work set, computed once from the loaded progress. -/
def remainingComponents (catalog : Catalog) (p : Progress) :
    List ComponentInfo :=
  catalog.components.filter fun c =>
    !(p.completed.contains c.slug) && !(p.failed.contains c.slug)

/-- `downloadComponents` (lines 261-367): load progress, compute the
remaining work set once, run the loop.  `progressRead` is the result of
reading the progress file. -/
def downloadComponents (o : Collab) (catalog : Catalog)
    (progressRead : Except String Progress) : Progress × List Event :=
  let p := loadProgress progressRead
  downloadLoop o p (remainingComponents catalog p)

/-- Is `pat` a leading piece of `s`? -/
def isPre : Str → Str → Bool
  | [], _ => true
  | _ :: _, [] => false
  | a :: as, b :: bs => a = b && isPre as bs

/-- JS `String.prototype.includes`: does `pat` occur somewhere in `s`? -/
def occurs (pat : Str) : Str → Bool
  | [] => isPre pat []
  | c :: cs => isPre pat (c :: cs) || occurs pat cs

/-- JS `String.prototype.trim` (ASCII whitespace). -/
def jsTrim (s : Str) : Str :=
  ((s.dropWhile isWsChar).reverse.dropWhile isWsChar).reverse

/-- Line 205: `name.replace(/\s*\d+$/, '').trim()` - remove one trailing
digit run (and the whitespace just before it) when present, then trim. -/
def stripTrailingIndex (s : Str) : Str :=
  let r := s.reverse
  if (r.takeWhile isDigitChar).isEmpty then jsTrim s
  else jsTrim ((r.dropWhile isDigitChar).dropWhile isWsChar).reverse

/-- Lines 204-220: category classification by ordered substring tests on
the name minus its trailing index. -/
def classify (name : Str) : Str × Str :=
  let sub := stripTrailingIndex name
  if occurs (strL "Application Shell") sub then
    (strL "Application UI", strL "Application Shells")
  else if occurs (strL "Navbar") sub then (strL "Marketing", strL "Navbars")
  else if occurs (strL "Blog") sub then (strL "Marketing", strL "Blogs")
  else if occurs (strL "Banner") sub then (strL "Marketing", strL "Banners")
  else (strL "Unknown", sub)

/-- Lines 199-229: build one `ComponentInfo` from a recovered name. -/
def mkComponent (name : Str) : ComponentInfo :=
  let slug := nameToSlug name
  let cs := classify name
  { name := name
    slug := slug
    category := cs.1
    subcategory := cs.2
    url := BASE_URL ++ strL "/react-components/" ++ slug }

def cmdExtractCats : Str := strL "browser extract categories"
def cmdExtractNames : Str := strL "browser extract component names"
def cmdClickNext : Str := strL "browser act click the next page button"

/-- Per-page oracle for discovery.  `extractOk` is the `browserCommand
extract` call for the page; on success `names` is the list of component
names recovered by the embedded-JSON parse with its regex fallback (an
unparsable page yields `[]`, since that parse failure is caught by the
inner `try`); `nextOk` is the click on the next-page control. -/
structure DiscPage where
  extractOk : Bool
  names : List Str
  nextOk : Bool

/-- Oracle for a discovery run: the initial navigation, the one-time
category extraction, and every page. -/
structure DiscWorld where
  navOk : Bool
  catsOk : Bool
  page : Nat → DiscPage

/-- The page loop of `discoverComponents` (lines 161-248), iterating over
pages `page`, `page+1`, ... with `left+1` pages left.  Per-page failures
are caught: a failed extract skips the page (and the next-page click); a
failed next-page click is also caught and the loop continues.  The
rate-limit delay runs only after a successful click. -/
def discLoop (d : Nat → DiscPage) : Nat → Nat → List ComponentInfo × List Event
  | 0, _ => ([], [])
  | left + 1, page =>
    let pg := d page
    let here :=
      if pg.extractOk = false then
        (([] : List ComponentInfo), [Event.browser cmdExtractNames false])
      else
        let comps := pg.names.map mkComponent
        if left = 0 then (comps, [Event.browser cmdExtractNames true])
        else
          (comps,
            [Event.browser cmdExtractNames true,
             Event.browser cmdClickNext pg.nextOk] ++
            (if pg.nextOk then [Event.delay DELAY_MS] else []))
    let rest := discLoop d left (page + 1)
    (here.1 ++ rest.1, here.2 ++ rest.2)

/-- `discoverComponents` (lines 140-255).  The initial navigation and the
category extraction sit outside any `try`, so their failure escapes the
function (`none`).  After the page loop, `totalComponents` is recomputed
and the catalog persisted. -/
def discoverComponents (d : DiscWorld) (maxPages : Nat) :
    Option Catalog × List Event :=
  let t1 := [Event.browser (cmdNavigate LISTING_URL) d.navOk]
  if d.navOk = false then (none, t1) else
  let t2 := t1 ++ [Event.delay 3000, Event.browser cmdExtractCats d.catsOk]
  if d.catsOk = false then (none, t2) else
  let r := discLoop d.page maxPages 1
  let cat : Catalog := { totalComponents := r.1.length, components := r.1 }
  (some cat, t2 ++ r.2 ++ [Event.saveCatalog cat])

/-- The command dispatched by `main` (lines 372-427).  `unknown` is the
`default` branch (missing or unrecognized first argument). -/
inductive Command where
  | discover (maxPages : Nat)
  | download
  | all
  | unknown
deriving DecidableEq, Repr

/-- Everything `main` consumes from the outside world. -/
structure World where
  disc : DiscWorld
  catalogRead : Except String Catalog
  progressRead : Except String Progress
  collab : Collab
  closeOk : Bool

def noComponentsMsg : Str := strL "No components in catalog. Run discovery first."

/-- Lines 414-424: the `browser close` at the end of the `try`; if it
fails, control reaches the `catch`, which attempts `browser close` once
more with its own failure swallowed, then exits 1. -/
def finish (closeOk : Bool) : List Event :=
  if closeOk then [Event.browser cmdClose true, Event.exitCode 0]
  else [Event.browser cmdClose false, Event.browser cmdClose false,
        Event.exitCode 1]

/-- `main` (lines 372-427).  The `download` branch checks for an empty
catalog and calls `process.exit(1)` directly; the `all` branch runs
discovery and feeds its catalog straight into `downloadComponents`
without that check; the `default` branch prints usage and calls
`process.exit(1)` directly.  A failure escaping discovery reaches the
`catch`, which attempts to close the browser (failure swallowed) and
exits 1. -/
def mainRun (w : World) : Command → List Event
  | .discover maxPages =>
    let r := discoverComponents w.disc maxPages
    match r.1 with
    | none => r.2 ++ [Event.browser cmdClose w.closeOk, Event.exitCode 1]
    | some _ => r.2 ++ finish w.closeOk
  | .download =>
    let catalog := loadCatalog w.catalogRead
    if catalog.components.length = 0 then
      [Event.printErr noComponentsMsg, Event.exitCode 1]
    else
      (downloadComponents w.collab catalog w.progressRead).2 ++ finish w.closeOk
  | .all =>
    let r := discoverComponents w.disc 32
    match r.1 with
    | none => r.2 ++ [Event.browser cmdClose w.closeOk, Event.exitCode 1]
    | some cat =>
      r.2 ++ (downloadComponents w.collab cat w.progressRead).2 ++
        finish w.closeOk
  | .unknown => [Event.printUsage, Event.exitCode 1]

/-! ## Helper lemmas -/

lemma length_filter_not_add (l : List α) (p : α → Bool) :
    (l.filter fun a => !(p a)).length + (l.filter p).length = l.length := by
  induction l with
  | nil => simp
  | cons a l ih =>
    by_cases h : p a = true <;> simp [h, List.filter_cons] <;> omega

lemma remainingComponents_eq_filter_not (catalog : Catalog) (p : Progress) :
    remainingComponents catalog p =
      catalog.components.filter fun c =>
        !(p.completed.contains c.slug || p.failed.contains c.slug) := by
  unfold remainingComponents
  apply List.filter_congr
  intro c _
  cases h1 : p.completed.contains c.slug <;>
    cases h2 : p.failed.contains c.slug <;> simp [h1, h2]

/-! ## Concrete fixtures used by witnesses and counterexamples -/

def fixA : ComponentInfo :=
  { name := strL "Navbar 1", slug := strL "navbar-1",
    category := strL "Marketing", subcategory := strL "Navbars",
    url := BASE_URL ++ strL "/react-components/navbar-1" }

def fixB : ComponentInfo :=
  { name := strL "Navbar 2", slug := strL "navbar-2",
    category := strL "Marketing", subcategory := strL "Navbars",
    url := BASE_URL ++ strL "/react-components/navbar-2" }

def fixC : ComponentInfo :=
  { name := strL "Navbar 3", slug := strL "navbar-3",
    category := strL "Marketing", subcategory := strL "Navbars",
    url := BASE_URL ++ strL "/react-components/navbar-3" }

def fixCat2 : Catalog := { totalComponents := 2, components := [fixA, fixB] }

def fixProg1 : Progress := { completed := [strL "navbar-1"], failed := [] }

/-- A collaborator for which every step of every item succeeds. -/
def okCollab : Collab :=
  { navOk := fun _ => true, reactOk := fun _ => true, codeOk := fun _ => true,
    metaOk := fun _ => true, imageOk := fun _ => true,
    shot := fun _ => some (strL "/tmp/shot.png"),
    mkdirOk := fun _ => true, writeOk := fun _ => true,
    copyOk := fun _ => true }

/-- A collaborator that fails the initial navigation for `navbar-2` and
succeeds everywhere else. -/
def failBCollab : Collab :=
  { okCollab with navOk := fun c => !(c.slug = strL "navbar-2" : Bool) }

/-- A collaborator for which everything up to the source-file write
succeeds and the screenshot copy fails. -/
def copyFailCollab : Collab :=
  { okCollab with copyOk := fun _ => false }

/-! ## C1: the remaining work set -/

/-- C1: at the start of a download run the work set is exactly the
catalog entries whose slug is in neither the completed set nor the
failed set, in catalog order; its length is the number of catalog
entries minus the number of catalog entries whose slug lies in the union
of the two sets, and no remaining entry has its slug in either set. -/
theorem c1_remaining_work_set (catalog : Catalog) (p : Progress) :
    (remainingComponents catalog p).length
        = catalog.components.length -
            (catalog.components.filter fun c =>
              p.completed.contains c.slug || p.failed.contains c.slug).length ∧
    (∀ c ∈ remainingComponents catalog p,
        ¬ c.slug ∈ p.completed ∧ ¬ c.slug ∈ p.failed) ∧
    List.Sublist (remainingComponents catalog p) catalog.components ∧
    (∀ c ∈ catalog.components,
        ¬ c.slug ∈ p.completed → ¬ c.slug ∈ p.failed →
          c ∈ remainingComponents catalog p) := by
  refine ⟨?_, ?_, ?_, ?_⟩
  · rw [remainingComponents_eq_filter_not]
    have h := length_filter_not_add catalog.components
      (fun c => p.completed.contains c.slug || p.failed.contains c.slug)
    omega
  · intro c hc
    have h := (List.mem_filter.mp hc).2
    simp only [List.contains, Bool.and_eq_true, Bool.not_eq_true',
      List.elem_eq_mem, decide_eq_false_iff_not] at h
    exact h
  · exact List.filter_sublist _
  · intro c hc h1 h2
    refine List.mem_filter.mpr ⟨hc, ?_⟩
    simp only [List.contains, Bool.and_eq_true, Bool.not_eq_true',
      List.elem_eq_mem, decide_eq_false_iff_not]
    exact ⟨h1, h2⟩

/-- Witness for C1 at a concrete catalog and progress record. -/
theorem c1_remaining_work_set_witness :
    (remainingComponents fixCat2 fixProg1).length
        = fixCat2.components.length -
            (fixCat2.components.filter fun c =>
              fixProg1.completed.contains c.slug ||
                fixProg1.failed.contains c.slug).length ∧
    (∀ c ∈ remainingComponents fixCat2 fixProg1,
        ¬ c.slug ∈ fixProg1.completed ∧ ¬ c.slug ∈ fixProg1.failed) ∧
    List.Sublist (remainingComponents fixCat2 fixProg1) fixCat2.components ∧
    (∀ c ∈ fixCat2.components,
        ¬ c.slug ∈ fixProg1.completed → ¬ c.slug ∈ fixProg1.failed →
          c ∈ remainingComponents fixCat2 fixProg1) :=
  c1_remaining_work_set fixCat2 fixProg1

/-! ## C7: the path-segment sanitizer -/

/-- C7: `sanitizeFilename` is total (a Lean function) and idempotent, and
every character of its output lies in the class `[A-Za-z0-9-]`. -/
theorem c7_sanitize_idempotent (x : Str) :
    sanitizeFilename (sanitizeFilename x) = sanitizeFilename x ∧
    ∀ c ∈ sanitizeFilename x, allowedInFilename c = true := by
  constructor
  · simp [sanitizeFilename, List.filter_filter]
  · intro c hc
    exact (List.mem_filter.mp hc).2

/-- Witness for C7 at a concrete input containing disallowed
characters. -/
theorem c7_sanitize_idempotent_witness :
    sanitizeFilename (sanitizeFilename (strL "a b/c_1-!"))
        = sanitizeFilename (strL "a b/c_1-!") ∧
    ∀ c ∈ sanitizeFilename (strL "a b/c_1-!"), allowedInFilename c = true :=
  c7_sanitize_idempotent _

/-! ## C8: load helpers never fail -/

/-- C8: `loadCatalog` and `loadProgress` are total, and on any read or
parse failure (including a missing file) they return the fresh empty
catalog (`totalComponents = 0`, no components) and the fresh empty
progress record. -/
theorem c8_load_defaults (err : String) :
    loadCatalog (.error err) = { totalComponents := 0, components := [] } ∧
    loadProgress (.error err) = { completed := [], failed := [] } :=
  ⟨rfl, rfl⟩

/-! ## Download-loop lemmas -/

lemma downloadStep_progress (o : Collab) (c : ComponentInfo) (isLast : Bool)
    (p : Progress) :
    (downloadStep o c isLast p).1 =
      if itemSucceeds o c then
        { completed := p.completed ++ [c.slug], failed := p.failed }
      else
        { completed := p.completed, failed := p.failed ++ [c.slug] } := by
  unfold downloadStep itemSucceeds
  by_cases h : (processItem o c).1 = true
  · simp only [h, if_true]
    cases isLast <;> simp
  · simp only [Bool.not_eq_true] at h
    simp [h]

lemma downloadStep_trace_fail (o : Collab) (c : ComponentInfo) (isLast : Bool)
    (p : Progress) (h : itemSucceeds o c = false) :
    (downloadStep o c isLast p).2 =
      (processItem o c).2 ++
        [Event.saveProgress
          { completed := p.completed, failed := p.failed ++ [c.slug] }] := by
  unfold itemSucceeds at h
  simp [downloadStep, h]

lemma downloadStep_trace_succ_notLast (o : Collab) (c : ComponentInfo)
    (p : Progress) (h : itemSucceeds o c = true) :
    (downloadStep o c false p).2 =
      (processItem o c).2 ++
        [Event.saveProgress
           { completed := p.completed ++ [c.slug], failed := p.failed },
         Event.delay DELAY_MS] := by
  unfold itemSucceeds at h
  simp [downloadStep, h]

lemma downloadStep_trace_succ_last (o : Collab) (c : ComponentInfo)
    (p : Progress) (h : itemSucceeds o c = true) :
    (downloadStep o c true p).2 =
      (processItem o c).2 ++
        [Event.saveProgress
          { completed := p.completed ++ [c.slug], failed := p.failed }] := by
  unfold itemSucceeds at h
  simp [downloadStep, h]

lemma downloadLoop_cons (o : Collab) (p : Progress) (c : ComponentInfo)
    (rest : List ComponentInfo) :
    downloadLoop o p (c :: rest) =
      ((downloadLoop o (downloadStep o c rest.isEmpty p).1 rest).1,
       (downloadStep o c rest.isEmpty p).2 ++
         (downloadLoop o (downloadStep o c rest.isEmpty p).1 rest).2) := rfl

lemma downloadLoop_progress (o : Collab) (cs : List ComponentInfo)
    (p : Progress) :
    (downloadLoop o p cs).1 =
      { completed := p.completed ++
          ((cs.filter fun c => itemSucceeds o c).map ComponentInfo.slug),
        failed := p.failed ++
          ((cs.filter fun c => !(itemSucceeds o c)).map ComponentInfo.slug) } := by
  induction cs generalizing p with
  | nil => simp [downloadLoop]
  | cons c rest ih =>
    rw [downloadLoop_cons]
    simp only
    rw [ih, downloadStep_progress]
    by_cases h : itemSucceeds o c = true <;>
      simp [h, List.filter_cons]

lemma downloadComponents_eq (o : Collab) (catalog : Catalog) (p₀ : Progress) :
    downloadComponents o catalog (.ok p₀) =
      downloadLoop o p₀ (remainingComponents catalog p₀) := rfl

lemma remainingComponents_all (catalog : Catalog) (p : Progress)
    (h : ∀ c ∈ catalog.components,
      ¬ c.slug ∈ p.completed ∧ ¬ c.slug ∈ p.failed) :
    remainingComponents catalog p = catalog.components := by
  unfold remainingComponents
  rw [List.filter_eq_self]
  intro c hc
  have hcc := h c hc
  simp only [List.contains, List.elem_eq_mem, Bool.and_eq_true,
    Bool.not_eq_true', decide_eq_false_iff_not]
  exact hcc

/-! ## C2: fault isolation in the download loop -/

/-- C2: an error while processing an item appends exactly that item's
slug to `failed`, the updated progress is persisted, and the run
continues.  For a 3-item catalog where the collaborator fails exactly
the second item, one run puts item 2's slug in `failed` and items 1 and
3's slugs in `completed`, and the intermediate progress after item 2's
failure is saved. -/
theorem c2_fault_isolation (o : Collab) (p₀ : Progress) (n : Nat)
    (a b c : ComponentInfo)
    (hac : ¬ a.slug ∈ p₀.completed) (haf : ¬ a.slug ∈ p₀.failed)
    (hbc : ¬ b.slug ∈ p₀.completed) (hbf : ¬ b.slug ∈ p₀.failed)
    (hcc : ¬ c.slug ∈ p₀.completed) (hcf : ¬ c.slug ∈ p₀.failed)
    (hsa : itemSucceeds o a = true) (hsb : itemSucceeds o b = false)
    (hsc : itemSucceeds o c = true) :
    (downloadComponents o ⟨n, [a, b, c]⟩ (.ok p₀)).1.completed
        = p₀.completed ++ [a.slug, c.slug] ∧
    (downloadComponents o ⟨n, [a, b, c]⟩ (.ok p₀)).1.failed
        = p₀.failed ++ [b.slug] ∧
    Event.saveProgress
        { completed := p₀.completed ++ [a.slug],
          failed := p₀.failed ++ [b.slug] }
      ∈ (downloadComponents o ⟨n, [a, b, c]⟩ (.ok p₀)).2 := by
  have hrem : remainingComponents ⟨n, [a, b, c]⟩ p₀ = [a, b, c] := by
    apply remainingComponents_all
    intro x hx
    simp only [List.mem_cons, List.not_mem_nil, or_false] at hx
    rcases hx with h | h | h
    · subst h; exact ⟨hac, haf⟩
    · subst h; exact ⟨hbc, hbf⟩
    · subst h; exact ⟨hcc, hcf⟩
  rw [downloadComponents_eq, hrem]
  have hprog := downloadLoop_progress o [a, b, c] p₀
  refine ⟨?_, ?_, ?_⟩
  · rw [hprog]
    simp [List.filter_cons, hsa, hsb, hsc]
  · rw [hprog]
    simp [List.filter_cons, hsa, hsb, hsc]
  · rw [downloadLoop_cons]
    simp only [List.isEmpty_cons]
    rw [downloadStep_progress, hsa, if_pos rfl]
    rw [downloadLoop_cons]
    simp only [List.isEmpty_cons]
    rw [downloadStep_trace_fail o b false _ hsb]
    simp [List.mem_append]

/-- Witness for C2: three concrete components, a collaborator failing
exactly the second one, empty initial progress. -/
theorem c2_fault_isolation_witness :
    (downloadComponents failBCollab ⟨3, [fixA, fixB, fixC]⟩
        (.ok { completed := [], failed := [] })).1.completed
      = [fixA.slug, fixC.slug] ∧
    (downloadComponents failBCollab ⟨3, [fixA, fixB, fixC]⟩
        (.ok { completed := [], failed := [] })).1.failed
      = [fixB.slug] ∧
    Event.saveProgress { completed := [fixA.slug], failed := [fixB.slug] }
      ∈ (downloadComponents failBCollab ⟨3, [fixA, fixB, fixC]⟩
          (.ok { completed := [], failed := [] })).2 := by
  exact c2_fault_isolation failBCollab { completed := [], failed := [] } 3
    fixA fixB fixC (by decide) (by decide) (by decide) (by decide)
    (by decide) (by decide) (by decide) (by decide) (by decide)

/-! ## C9: duplicate slugs are processed twice -/

/-- C9: the work set is computed once before the loop, so a catalog with
two entries sharing a slug absent from the initial progress gets both
entries processed in the same run: a slug succeeding twice appears twice
in `completed`. -/
theorem c9_duplicate_slug_processed_twice (o : Collab) (p₀ : Progress)
    (n : Nat) (e₁ e₂ : ComponentInfo)
    (hslug : e₂.slug = e₁.slug)
    (hc : ¬ e₁.slug ∈ p₀.completed) (hf : ¬ e₁.slug ∈ p₀.failed)
    (h₁ : itemSucceeds o e₁ = true) (h₂ : itemSucceeds o e₂ = true) :
    (downloadComponents o ⟨n, [e₁, e₂]⟩ (.ok p₀)).1.completed
        = p₀.completed ++ [e₁.slug, e₁.slug] := by
  have hrem : remainingComponents ⟨n, [e₁, e₂]⟩ p₀ = [e₁, e₂] := by
    apply remainingComponents_all
    intro x hx
    simp only [List.mem_cons, List.not_mem_nil, or_false] at hx
    rcases hx with h | h
    · subst h; exact ⟨hc, hf⟩
    · subst h; rw [hslug]; exact ⟨hc, hf⟩
  rw [downloadComponents_eq, hrem, downloadLoop_progress o [e₁, e₂] p₀]
  simp [List.filter_cons, h₁, h₂, hslug]

/-- Witness for C9: the same component listed twice, an all-success
collaborator, empty initial progress. -/
theorem c9_duplicate_slug_witness :
    (downloadComponents okCollab ⟨2, [fixA, fixA]⟩
        (.ok { completed := [], failed := [] })).1.completed
      = [fixA.slug, fixA.slug] := by
  exact c9_duplicate_slug_processed_twice okCollab
    { completed := [], failed := [] } 2 fixA fixA rfl (by decide) (by decide)
    (by decide) (by decide)

/-! ## C10: per-item artifact production is not atomic -/

/-- C10: when every step up to and including the source-file write
succeeds and the screenshot copy fails, the item's trace shows the
successful `.tsx` write strictly before the failed copy, the item is a
failure, and its slug is routed to `failed` - the write is not undone. -/
theorem c10_write_survives_copy_failure (o : Collab) (c : ComponentInfo)
    (p : Progress) (isLast : Bool) (sp : Str)
    (hnav : o.navOk c = true) (hreact : o.reactOk c = true)
    (hcode : o.codeOk c = true) (hmeta : o.metaOk c = true)
    (himg : o.imageOk c = true) (hshot : o.shot c = some sp)
    (hmk : o.mkdirOk c = true) (hw : o.writeOk c = true)
    (hcopy : o.copyOk c = false) :
    processItem o c =
      (false,
        [Event.browser (cmdNavigate (componentUrl c)) true, Event.delay 2000,
         Event.browser cmdClickReact true, Event.delay 3000,
         Event.browser cmdExtractCode true, Event.browser cmdExtractMeta true,
         Event.browser cmdClickImage true, Event.delay 1000,
         Event.browser cmdScreenshot true,
         Event.fsMkdir (categoryDir c) true,
         Event.fsWrite (componentPath c) true,
         Event.fsCopy sp (imagePath c) false]) ∧
    (downloadStep o c isLast p).1
        = { completed := p.completed, failed := p.failed ++ [c.slug] } := by
  have hp : processItem o c =
      (false,
        [Event.browser (cmdNavigate (componentUrl c)) true, Event.delay 2000,
         Event.browser cmdClickReact true, Event.delay 3000,
         Event.browser cmdExtractCode true, Event.browser cmdExtractMeta true,
         Event.browser cmdClickImage true, Event.delay 1000,
         Event.browser cmdScreenshot true,
         Event.fsMkdir (categoryDir c) true,
         Event.fsWrite (componentPath c) true,
         Event.fsCopy sp (imagePath c) false]) := by
    simp [processItem, hnav, hreact, hcode, hmeta, himg, hshot, hmk, hw, hcopy]
  refine ⟨hp, ?_⟩
  rw [downloadStep_progress]
  have hfail : itemSucceeds o c = false := by
    unfold itemSucceeds
    rw [hp]
  rw [hfail]
  simp

/-- Witness for C10: a collaborator whose screenshot copy fails. -/
theorem c10_write_survives_copy_failure_witness :
    processItem copyFailCollab fixA =
      (false,
        [Event.browser (cmdNavigate (componentUrl fixA)) true,
         Event.delay 2000,
         Event.browser cmdClickReact true, Event.delay 3000,
         Event.browser cmdExtractCode true, Event.browser cmdExtractMeta true,
         Event.browser cmdClickImage true, Event.delay 1000,
         Event.browser cmdScreenshot true,
         Event.fsMkdir (categoryDir fixA) true,
         Event.fsWrite (componentPath fixA) true,
         Event.fsCopy (strL "/tmp/shot.png") (imagePath fixA) false]) ∧
    (downloadStep copyFailCollab fixA false
        { completed := [], failed := [] }).1
      = { completed := [], failed := [fixA.slug] } := by
  exact c10_write_survives_copy_failure copyFailCollab fixA
    { completed := [], failed := [] } false (strL "/tmp/shot.png")
    rfl rfl rfl rfl rfl rfl rfl rfl rfl

/-! ## C5: the rate-limit delay between items -/

/-- C5 counterexample: the claim says the delay follows the terminal
outcome of every non-last item, success or failure; but for a failing
non-last item the step's events end with the progress save - no
rate-limit delay is inserted (the `delay` sits inside the `try`, after
the success path). -/
theorem c5_counterexample :
    ¬ ∀ (o : Collab) (c : ComponentInfo) (p : Progress),
        (downloadStep o c false p).2.getLast? = some (Event.delay DELAY_MS) := by
  intro h
  exact absurd
    (h failBCollab fixB { completed := [], failed := [] }) (by decide)

/-- C5 amended: after a *successful* non-last item the orchestrator
waits the rate-limit delay before the next iteration; after a failed
item (and after the last item) it proceeds immediately, the segment
ending with the progress save. -/
theorem c5_delay_only_after_success (o : Collab) (c : ComponentInfo)
    (p : Progress) :
    (itemSucceeds o c = true →
      (downloadStep o c false p).2.getLast? = some (Event.delay DELAY_MS)) ∧
    (itemSucceeds o c = false →
      (downloadStep o c false p).2.getLast?
        = some (Event.saveProgress
            { completed := p.completed, failed := p.failed ++ [c.slug] })) ∧
    (itemSucceeds o c = true →
      (downloadStep o c true p).2.getLast?
        = some (Event.saveProgress
            { completed := p.completed ++ [c.slug], failed := p.failed })) := by
  refine ⟨fun h => ?_, fun h => ?_, fun h => ?_⟩
  · rw [downloadStep_trace_succ_notLast o c p h]
    rw [show (processItem o c).2 ++
        [Event.saveProgress
           { completed := p.completed ++ [c.slug], failed := p.failed },
         Event.delay DELAY_MS] =
      ((processItem o c).2 ++
        [Event.saveProgress
           { completed := p.completed ++ [c.slug], failed := p.failed }]) ++
        [Event.delay DELAY_MS] from by simp]
    exact List.getLast?_concat _
  · rw [downloadStep_trace_fail o c false p h]
    exact List.getLast?_concat _
  · rw [downloadStep_trace_succ_last o c p h]
    exact List.getLast?_concat _

/-- Witness for the amended C5: one successful and one failing concrete
item. -/
theorem c5_delay_only_after_success_witness :
    (downloadStep okCollab fixA false { completed := [], failed := [] }).2.getLast?
      = some (Event.delay DELAY_MS) ∧
    (downloadStep failBCollab fixB false
        { completed := [], failed := [] }).2.getLast?
      = some (Event.saveProgress { completed := [], failed := [fixB.slug] }) := by
  refine ⟨?_, ?_⟩
  · exact (c5_delay_only_after_success okCollab fixA
      { completed := [], failed := [] }).1 (by decide)
  · exact (c5_delay_only_after_success failBCollab fixB
      { completed := [], failed := [] }).2.1 (by decide)

/-! ## C3 and C4: main dispatch behaviour -/

/-- A discovery world whose pages all extract successfully but contain
no component names: discovery completes with an empty catalog. -/
def emptyDisc : DiscWorld :=
  { navOk := true, catsOk := true,
    page := fun _ => { extractOk := true, names := [], nextOk := true } }

/-- A world where discovery finds nothing, the stored catalog is empty,
progress is empty, and everything else succeeds. -/
def c3World : World :=
  { disc := emptyDisc,
    catalogRead := .ok { totalComponents := 0, components := [] },
    progressRead := .ok { completed := [], failed := [] },
    collab := okCollab,
    closeOk := true }

lemma printErr_not_mem_discLoop (d : Nat → DiscPage) :
    ∀ left page m, Event.printErr m ∉ (discLoop d left page).2 := by
  intro left
  induction left with
  | zero =>
    intro page m h
    simp [discLoop] at h
  | succ n ih =>
    intro page m h
    simp only [discLoop, List.mem_append] at h
    rcases h with h | h
    · cases hx : (d page).extractOk
      · simp [hx] at h
      · by_cases hz : n = 0
        · simp [hx, hz] at h
        · cases hn : (d page).nextOk <;> simp [hx, hz, hn] at h
    · exact ih (page + 1) m h

lemma printErr_not_mem_discover (d : DiscWorld) (n : Nat) (m : Str) :
    Event.printErr m ∉ (discoverComponents d n).2 := by
  unfold discoverComponents
  by_cases h1 : d.navOk = false
  · simp [h1]
  · by_cases h2 : d.catsOk = false
    · simp [h1, h2]
    · intro hmem
      rw [if_neg h1, if_neg h2] at hmem
      rcases List.mem_append.mp hmem with h | h
      · rcases List.mem_append.mp h with h' | h'
        · simp at h'
        · exact printErr_not_mem_discLoop d.page n 1 m h'
      · simp at h

/-- C3 counterexample: in the combined discover-then-download run
(command `all`) with a discovery that yields an empty catalog, the
download phase is entered with zero components, no "no components"
report is printed, no non-zero exit occurs, and the run ends with exit
status 0 - the empty-catalog fail-fast does not cover this invocation
path. -/
theorem c3_counterexample :
    Event.printErr noComponentsMsg ∉ mainRun c3World .all ∧
    Event.exitCode 1 ∉ mainRun c3World .all ∧
    (mainRun c3World .all).getLast? = some (Event.exitCode 0) := by decide

/-- C3 amended: only the `download` command fails fast with the
"no components in catalog" report on an empty catalog; the `all` path
feeds the freshly discovered catalog straight into the download phase
without the check, prints no such report, and (when the session close
succeeds) exits with status 0. -/
theorem c3_empty_check_only_on_download (w : World) (cat : Catalog) :
    ((loadCatalog w.catalogRead).components.length = 0 →
        mainRun w .download = [Event.printErr noComponentsMsg, Event.exitCode 1]) ∧
    ((discoverComponents w.disc 32).1 = some cat → cat.components = [] →
        Event.printErr noComponentsMsg ∉ mainRun w .all ∧
        (mainRun w .all).getLast?
          = some (Event.exitCode (if w.closeOk then 0 else 1))) := by
  constructor
  · intro h
    simp only [mainRun]
    rw [if_pos h]
  · intro hd hc
    have hdl : (downloadComponents w.collab cat w.progressRead).2 = [] := by
      unfold downloadComponents
      simp [remainingComponents, hc, downloadLoop]
    simp only [mainRun]
    rw [hd]
    simp only [hdl, List.append_nil]
    constructor
    · intro hmem
      simp only [List.mem_append] at hmem
      rcases hmem with h | h
      · exact printErr_not_mem_discover w.disc 32 noComponentsMsg h
      · cases hw : w.closeOk <;> simp [finish, hw] at h
    · rw [List.getLast?_append]
      cases hw : w.closeOk <;> simp [finish, hw]

/-- Witness for the amended C3: the concrete world with an empty stored
catalog and an empty discovery result. -/
theorem c3_empty_check_only_on_download_witness :
    ((loadCatalog c3World.catalogRead).components.length = 0 →
        mainRun c3World .download
          = [Event.printErr noComponentsMsg, Event.exitCode 1]) ∧
    ((discoverComponents c3World.disc 32).1
          = some { totalComponents := 0, components := [] } →
      ({ totalComponents := 0, components := [] } : Catalog).components = [] →
        Event.printErr noComponentsMsg ∉ mainRun c3World .all ∧
        (mainRun c3World .all).getLast?
          = some (Event.exitCode (if c3World.closeOk then 0 else 1))) :=
  c3_empty_check_only_on_download c3World
    { totalComponents := 0, components := [] }

/-- C4 counterexample: on the unknown-command exit path the process
prints usage and exits 1 without ever attempting the automation session
close command. -/
theorem c4_counterexample :
    mainRun c3World .unknown = [Event.printUsage, Event.exitCode 1] ∧
    ∀ ok, Event.browser cmdClose ok ∉ mainRun c3World .unknown := by decide

/-- C4 amended: the session close is attempted before termination on the
`discover`, `all`, and non-empty-catalog `download` paths (including the
fatal-error path, where a failing close is retried once with its failure
swallowed), but the unknown-command and empty-catalog exits terminate
via `process.exit(1)` without any close attempt.  `finish` - the normal
epilogue - always begins with the close attempt. -/
theorem c4_close_not_on_every_path (w : World) (maxPages : Nat) :
    (∃ t, mainRun w (.discover maxPages) = t ++ finish w.closeOk ∨
          mainRun w (.discover maxPages)
            = t ++ [Event.browser cmdClose w.closeOk, Event.exitCode 1]) ∧
    (∃ t, mainRun w .all = t ++ finish w.closeOk ∨
          mainRun w .all
            = t ++ [Event.browser cmdClose w.closeOk, Event.exitCode 1]) ∧
    ((loadCatalog w.catalogRead).components.length ≠ 0 →
        ∃ t, mainRun w .download = t ++ finish w.closeOk) ∧
    ((loadCatalog w.catalogRead).components.length = 0 →
        mainRun w .download
          = [Event.printErr noComponentsMsg, Event.exitCode 1]) ∧
    mainRun w .unknown = [Event.printUsage, Event.exitCode 1] ∧
    (finish w.closeOk).head? = some (Event.browser cmdClose w.closeOk) := by
  refine ⟨?_, ?_, ?_, ?_, rfl, ?_⟩
  · cases hr : (discoverComponents w.disc maxPages).1 with
    | none =>
      refine ⟨(discoverComponents w.disc maxPages).2, Or.inr ?_⟩
      simp only [mainRun]
      rw [hr]
    | some cat =>
      refine ⟨(discoverComponents w.disc maxPages).2, Or.inl ?_⟩
      simp only [mainRun]
      rw [hr]
  · cases hr : (discoverComponents w.disc 32).1 with
    | none =>
      refine ⟨(discoverComponents w.disc 32).2, Or.inr ?_⟩
      simp only [mainRun]
      rw [hr]
    | some cat =>
      refine ⟨(discoverComponents w.disc 32).2 ++
        (downloadComponents w.collab cat w.progressRead).2, Or.inl ?_⟩
      simp only [mainRun]
      rw [hr]
  · intro h
    refine ⟨(downloadComponents w.collab (loadCatalog w.catalogRead)
      w.progressRead).2, ?_⟩
    simp only [mainRun]
    rw [if_neg h]
  · intro h
    simp only [mainRun]
    rw [if_pos h]
  · cases hw : w.closeOk <;> simp [finish, hw]

/-- Witness for the amended C4 at the concrete world. -/
theorem c4_close_not_on_every_path_witness :
    (∃ t, mainRun c3World (.discover 1) = t ++ finish c3World.closeOk ∨
          mainRun c3World (.discover 1)
            = t ++ [Event.browser cmdClose c3World.closeOk, Event.exitCode 1]) ∧
    (∃ t, mainRun c3World .all = t ++ finish c3World.closeOk ∨
          mainRun c3World .all
            = t ++ [Event.browser cmdClose c3World.closeOk, Event.exitCode 1]) ∧
    ((loadCatalog c3World.catalogRead).components.length ≠ 0 →
        ∃ t, mainRun c3World .download = t ++ finish c3World.closeOk) ∧
    ((loadCatalog c3World.catalogRead).components.length = 0 →
        mainRun c3World .download
          = [Event.printErr noComponentsMsg, Event.exitCode 1]) ∧
    mainRun c3World .unknown = [Event.printUsage, Event.exitCode 1] ∧
    (finish c3World.closeOk).head?
      = some (Event.browser cmdClose c3World.closeOk) :=
  c4_close_not_on_every_path c3World 1

/-! ## Character-level lemmas for the C6 round-trip -/

lemma toNat_ofNat_of_lt {n : Nat} (h : n < 55296) : (Char.ofNat n).toNat = n := by
  have hv : n.isValidChar := Or.inl h
  unfold Char.ofNat
  rw [dif_pos hv]
  rfl

lemma toLower_of_upper_range {c : Char} (h65 : 65 ≤ c.toNat)
    (h90 : c.toNat ≤ 90) : Char.toLower c = Char.ofNat (c.toNat + 32) := by
  unfold Char.toLower
  rw [if_pos ⟨h65, h90⟩]

lemma toLower_eq_self_of_not_upper {c : Char}
    (h : ¬(65 ≤ c.toNat ∧ c.toNat ≤ 90)) : Char.toLower c = c := by
  unfold Char.toLower
  rw [if_neg h]

lemma toUpper_of_lower_range {c : Char} (h97 : 97 ≤ c.toNat)
    (h122 : c.toNat ≤ 122) : Char.toUpper c = Char.ofNat (c.toNat - 32) := by
  unfold Char.toUpper
  rw [if_pos ⟨h97, h122⟩]

lemma toUpper_eq_self_of_not_lower {c : Char}
    (h : ¬(97 ≤ c.toNat ∧ c.toNat ≤ 122)) : Char.toUpper c = c := by
  unfold Char.toUpper
  rw [if_neg h]

lemma isUpperAlpha_iff {c : Char} :
    isUpperAlpha c = true ↔ 65 ≤ c.toNat ∧ c.toNat ≤ 90 := by
  simp [isUpperAlpha]

lemma isLowerAlpha_iff {c : Char} :
    isLowerAlpha c = true ↔ 97 ≤ c.toNat ∧ c.toNat ≤ 122 := by
  simp [isLowerAlpha]

lemma isDigitChar_iff {c : Char} :
    isDigitChar c = true ↔ 48 ≤ c.toNat ∧ c.toNat ≤ 57 := by
  simp [isDigitChar]

lemma toUpper_toLower_of_upper {c : Char} (h : isUpperAlpha c = true) :
    Char.toUpper (Char.toLower c) = c := by
  obtain ⟨h65, h90⟩ := isUpperAlpha_iff.mp h
  rw [toLower_of_upper_range h65 h90]
  have ht : (Char.ofNat (c.toNat + 32)).toNat = c.toNat + 32 :=
    toNat_ofNat_of_lt (by omega)
  rw [toUpper_of_lower_range (by rw [ht]; omega) (by rw [ht]; omega), ht]
  rw [show c.toNat + 32 - 32 = c.toNat from by omega, Char.ofNat_toNat]

lemma toLower_of_lower {c : Char} (h : isLowerAlpha c = true) :
    Char.toLower c = c := by
  obtain ⟨h97, _⟩ := isLowerAlpha_iff.mp h
  exact toLower_eq_self_of_not_upper (by omega)

lemma toLower_of_digit {c : Char} (h : isDigitChar c = true) :
    Char.toLower c = c := by
  obtain ⟨_, h57⟩ := isDigitChar_iff.mp h
  exact toLower_eq_self_of_not_upper (by omega)

lemma toUpper_of_digit {c : Char} (h : isDigitChar c = true) :
    Char.toUpper c = c := by
  obtain ⟨_, h57⟩ := isDigitChar_iff.mp h
  exact toUpper_eq_self_of_not_lower (by omega)

lemma toLower_toNat_bounds {c : Char} (h1 : 48 ≤ c.toNat)
    (h2 : c.toNat ≤ 122) :
    48 ≤ (Char.toLower c).toNat ∧ (Char.toLower c).toNat ≤ 122 := by
  by_cases hu : 65 ≤ c.toNat ∧ c.toNat ≤ 90
  · rw [toLower_of_upper_range hu.1 hu.2, toNat_ofNat_of_lt (by omega)]
    omega
  · rw [toLower_eq_self_of_not_upper hu]
    exact ⟨h1, h2⟩

lemma isWsChar_false_of_ge {c : Char} (h : 48 ≤ c.toNat) :
    isWsChar c = false := by
  have key : ∀ d : Char, d.toNat < 48 → decide (c = d) = false := by
    intro d hd
    apply decide_eq_false
    intro he
    rw [he] at h
    omega
  unfold isWsChar
  rw [key ' ' (by decide), key '\t' (by decide), key '\n' (by decide),
    key '\r' (by decide), key '\x0b' (by decide), key '\x0c' (by decide)]
  rfl

lemma ne_dash_of_ge {c : Char} (h : 48 ≤ c.toNat) : c ≠ '-' := by
  intro he
  rw [he] at h
  exact absurd h (by decide)

lemma capWord_bounds {w : Str} (h : capWord w = true) :
    ∀ c ∈ w, 48 ≤ c.toNat ∧ c.toNat ≤ 122 := by
  cases w with
  | nil => cases h
  | cons a as =>
    simp only [capWord, Bool.and_eq_true, List.all_eq_true] at h
    intro c hc
    rcases List.mem_cons.mp hc with hc | hc
    · subst hc
      obtain ⟨h65, h90⟩ := isUpperAlpha_iff.mp h.1
      omega
    · obtain ⟨h97, h122⟩ := isLowerAlpha_iff.mp (h.2 c hc)
      omega

lemma digitWord_bounds {d : Str} (h : digitWord d = true) :
    ∀ c ∈ d, 48 ≤ c.toNat ∧ c.toNat ≤ 122 := by
  simp only [digitWord, Bool.and_eq_true, List.all_eq_true] at h
  intro c hc
  obtain ⟨h48, h57⟩ := isDigitChar_iff.mp (h.2 c hc)
  omega

lemma capWord_ne_nil {w : Str} (h : capWord w = true) : w ≠ [] := by
  cases w with
  | nil => cases h
  | cons a as => exact List.cons_ne_nil a as

lemma digitWord_ne_nil {d : Str} (h : digitWord d = true) : d ≠ [] := by
  cases d with
  | nil => cases h
  | cons a as => exact List.cons_ne_nil a as

/-! ## List-level lemmas for the C6 round-trip -/

lemma replaceWsRuns_nil : replaceWsRuns [] = [] := rfl

lemma replaceWsRuns_cons_nonws {c : Char} (h : isWsChar c = false) (s : Str) :
    replaceWsRuns (c :: s) = c :: replaceWsRuns s := by
  cases s <;> simp [replaceWsRuns, h]

lemma replaceWsRuns_ws_cons_nonws {c c' : Char} (hc : isWsChar c = true)
    (hc' : isWsChar c' = false) (cs : Str) :
    replaceWsRuns (c :: c' :: cs) = '-' :: replaceWsRuns (c' :: cs) := by
  simp [replaceWsRuns, hc, hc']

lemma replaceWsRuns_append_nonws (x : Str)
    (hx : ∀ c ∈ x, isWsChar c = false) (s : Str) :
    replaceWsRuns (x ++ s) = x ++ replaceWsRuns s := by
  induction x with
  | nil => simp
  | cons c cs ih =>
    simp only [List.cons_append]
    rw [replaceWsRuns_cons_nonws (hx c (by simp)),
      ih (fun d hd => hx d (List.mem_cons_of_mem c hd))]

lemma replaceWsRuns_eq_self (x : Str) (hx : ∀ c ∈ x, isWsChar c = false) :
    replaceWsRuns x = x := by
  have h := replaceWsRuns_append_nonws x hx []
  simpa [replaceWsRuns_nil] using h

lemma joinSep_cons_cons (sep : Str) (x y : Str) (ys : List Str) :
    joinSep sep (x :: y :: ys) = x ++ sep ++ joinSep sep (y :: ys) := by
  rfl

lemma replaceWsRuns_spaceJoin (parts : List Str)
    (hne : ∀ p ∈ parts, p ≠ [])
    (hws : ∀ p ∈ parts, ∀ c ∈ p, isWsChar c = false) :
    replaceWsRuns (joinSep [' '] parts) = joinSep ['-'] parts := by
  induction parts with
  | nil => simp [joinSep, replaceWsRuns_nil]
  | cons x xs ih =>
    cases xs with
    | nil =>
      show replaceWsRuns (joinSep [' '] [x]) = joinSep ['-'] [x]
      simp only [joinSep]
      exact replaceWsRuns_eq_self x (hws x (by simp))
    | cons y ys =>
      rw [joinSep_cons_cons, joinSep_cons_cons, List.append_assoc,
        List.append_assoc]
      rw [replaceWsRuns_append_nonws x (hws x (by simp))]
      congr 1
      show replaceWsRuns (' ' :: joinSep [' '] (y :: ys))
          = '-' :: joinSep ['-'] (y :: ys)
      have hy : y ≠ [] := hne y (by simp)
      obtain ⟨yh, yt, rfl⟩ : ∃ h t, y = h :: t := by
        cases y with
        | nil => exact absurd rfl hy
        | cons a as => exact ⟨a, as, rfl⟩
      have hyh : isWsChar yh = false := hws (yh :: yt) (by simp) yh (by simp)
      obtain ⟨r, hr⟩ : ∃ r, joinSep [' '] ((yh :: yt) :: ys) = yh :: r := by
        cases ys with
        | nil => exact ⟨yt, rfl⟩
        | cons z zs => exact ⟨yt ++ [' '] ++ joinSep [' '] (z :: zs), rfl⟩
      rw [hr, replaceWsRuns_ws_cons_nonws (by decide) hyh, ← hr]
      congr 1
      exact ih (fun p hp => hne p (List.mem_cons_of_mem x hp))
        (fun p hp => hws p (List.mem_cons_of_mem x hp))

lemma splitChar_no_sep (sep : Char) (x : Str) (h : ∀ c ∈ x, c ≠ sep) :
    splitChar sep x = [x] := by
  induction x with
  | nil => simp [splitChar]
  | cons c cs ih =>
    simp only [splitChar]
    rw [if_neg (by exact fun he => h c (by simp) he),
      ih (fun d hd => h d (List.mem_cons_of_mem c hd))]

lemma splitChar_append_sep (sep : Char) (x t : Str)
    (h : ∀ c ∈ x, c ≠ sep) :
    splitChar sep (x ++ sep :: t) = x :: splitChar sep t := by
  induction x with
  | nil =>
    simp [splitChar]
  | cons c cs ih =>
    simp only [List.cons_append, splitChar, List.append_eq]
    rw [if_neg (by exact fun he => h c (by simp) he),
      ih (fun d hd => h d (List.mem_cons_of_mem c hd))]

lemma splitChar_joinSep (sep : Char) (parts : List Str)
    (hne : parts ≠ [])
    (h : ∀ p ∈ parts, ∀ c ∈ p, c ≠ sep) :
    splitChar sep (joinSep [sep] parts) = parts := by
  induction parts with
  | nil => exact absurd rfl hne
  | cons x xs ih =>
    cases xs with
    | nil =>
      show splitChar sep (joinSep [sep] [x]) = [x]
      simp only [joinSep]
      exact splitChar_no_sep sep x (h x (by simp))
    | cons y ys =>
      rw [joinSep_cons_cons, List.append_assoc]
      rw [show ([sep] ++ joinSep [sep] (y :: ys))
          = sep :: joinSep [sep] (y :: ys) from rfl]
      rw [splitChar_append_sep sep x _ (h x (by simp))]
      rw [ih (List.cons_ne_nil y ys)
        (fun p hp => h p (List.mem_cons_of_mem x hp))]

lemma jsLower_joinSep (sep : Str) (parts : List Str) :
    jsLower (joinSep sep parts) = joinSep (jsLower sep) (parts.map jsLower) := by
  induction parts with
  | nil => rfl
  | cons x xs ih =>
    cases xs with
    | nil => rfl
    | cons y ys =>
      simp only [List.map_cons]
      simp only [List.map_cons] at ih
      rw [joinSep_cons_cons, joinSep_cons_cons]
      simp only [jsLower, List.map_append]
      simp only [jsLower] at ih
      rw [ih]

lemma removeWs_joinSep_space (parts : List Str)
    (hws : ∀ p ∈ parts, ∀ c ∈ p, isWsChar c = false) :
    removeWs (joinSep [' '] parts) = parts.flatten := by
  induction parts with
  | nil => simp [joinSep, removeWs]
  | cons x xs ih =>
    have hx : removeWs x = x :=
      List.filter_eq_self.mpr (fun c hc => by simp [hws x (by simp) c hc])
    cases xs with
    | nil =>
      show removeWs (joinSep [' '] [x]) = [x].flatten
      simpa [joinSep] using hx
    | cons y ys =>
      rw [joinSep_cons_cons]
      simp only [removeWs, List.filter_append] at hx ⊢
      rw [hx]
      rw [show List.filter (fun c => !isWsChar c) [' '] = [] from rfl]
      rw [show List.filter (fun c => !isWsChar c) (joinSep [' '] (y :: ys))
          = removeWs (joinSep [' '] (y :: ys)) from rfl]
      rw [ih (fun p hp => hws p (List.mem_cons_of_mem x hp))]
      simp

lemma pascalPart_jsLower_cap {w : Str} (h : capWord w = true) :
    pascalPart (jsLower w) = w := by
  cases w with
  | nil => cases h
  | cons c cs =>
    simp only [capWord, Bool.and_eq_true, List.all_eq_true] at h
    simp only [jsLower, List.map_cons, pascalPart]
    rw [toUpper_toLower_of_upper h.1]
    congr 1
    have hcg : ∀ d ∈ cs, Char.toLower d = d :=
      fun d hd => toLower_of_lower (h.2 d hd)
    exact (List.map_congr_left hcg).trans (List.map_id' cs)

lemma pascalPart_jsLower_digit {d : Str} (h : digitWord d = true) :
    pascalPart (jsLower d) = d := by
  cases d with
  | nil => cases h
  | cons c cs =>
    simp only [digitWord, Bool.and_eq_true, List.all_eq_true] at h
    simp only [jsLower, List.map_cons, pascalPart]
    rw [toLower_of_digit (h.2 c (by simp)), toUpper_of_digit (h.2 c (by simp))]
    congr 1
    have hcg : ∀ e ∈ cs, Char.toLower e = e :=
      fun e he => toLower_of_digit (h.2 e (List.mem_cons_of_mem c he))
    exact (List.map_congr_left hcg).trans (List.map_id' cs)

/-! ## C6: slug / display-form round-trip -/

/-- C6: for a name made of capitalized words followed by a trailing
number (single spaces between pieces), converting to a slug with
`nameToSlug` and back with `toPascalCase` yields the name with all
whitespace removed: `toPascalCase (nameToSlug name) = removeWs name`.
For such names the casing is already normalized, so the round-trip is
exact. -/
theorem c6_slug_display_roundtrip (ws : List Str) (d : Str)
    (_hws0 : ws ≠ []) (hcap : ∀ w ∈ ws, capWord w = true)
    (hd : digitWord d = true) :
    toPascalCase (nameToSlug (joinSep [' '] (ws ++ [d])))
      = removeWs (joinSep [' '] (ws ++ [d])) := by
  have hbounds : ∀ p ∈ ws ++ [d], ∀ c ∈ p,
      48 ≤ c.toNat ∧ c.toNat ≤ 122 := by
    intro p hp
    rcases List.mem_append.mp hp with h | h
    · exact capWord_bounds (hcap p h)
    · rw [List.mem_singleton.mp h]
      exact digitWord_bounds hd
  have hne : ∀ p ∈ ws ++ [d], p ≠ [] := by
    intro p hp
    rcases List.mem_append.mp hp with h | h
    · exact capWord_ne_nil (hcap p h)
    · rw [List.mem_singleton.mp h]
      exact digitWord_ne_nil hd
  have hwsfree : ∀ p ∈ ws ++ [d], ∀ c ∈ p, isWsChar c = false :=
    fun p hp c hc => isWsChar_false_of_ge (hbounds p hp c hc).1
  have hlbounds : ∀ q ∈ (ws ++ [d]).map jsLower, ∀ c ∈ q,
      48 ≤ c.toNat ∧ c.toNat ≤ 122 := by
    intro q hq c hc
    obtain ⟨p, hp, rfl⟩ := List.mem_map.mp hq
    obtain ⟨e, he, rfl⟩ := List.mem_map.mp hc
    exact toLower_toNat_bounds (hbounds p hp e he).1 (hbounds p hp e he).2
  have hlne : ∀ q ∈ (ws ++ [d]).map jsLower, q ≠ [] := by
    intro q hq
    obtain ⟨p, hp, rfl⟩ := List.mem_map.mp hq
    intro hnil
    exact hne p hp (List.map_eq_nil_iff.mp hnil)
  have hlws : ∀ q ∈ (ws ++ [d]).map jsLower, ∀ c ∈ q,
      isWsChar c = false :=
    fun q hq c hc => isWsChar_false_of_ge (hlbounds q hq c hc).1
  have hldash : ∀ q ∈ (ws ++ [d]).map jsLower, ∀ c ∈ q, c ≠ '-' :=
    fun q hq c hc => ne_dash_of_ge (hlbounds q hq c hc).1
  have hmapne : (ws ++ [d]).map jsLower ≠ [] := by
    simp
  unfold nameToSlug toPascalCase
  rw [jsLower_joinSep]
  rw [show jsLower [' '] = [' '] from rfl]
  rw [replaceWsRuns_spaceJoin _ hlne hlws]
  rw [splitChar_joinSep '-' _ hmapne hldash]
  rw [List.map_map]
  have hid : ∀ p ∈ ws ++ [d], (pascalPart ∘ jsLower) p = p := by
    intro p hp
    rcases List.mem_append.mp hp with h | h
    · exact pascalPart_jsLower_cap (hcap p h)
    · rw [List.mem_singleton.mp h]
      exact pascalPart_jsLower_digit hd
  rw [List.map_congr_left hid, List.map_id']
  rw [removeWs_joinSep_space _ hwsfree]

/-- Witness for C6 at the spec's example `"Application Shell 1"`, whose
slug round-trips to `"ApplicationShell1"`. -/
theorem c6_slug_display_roundtrip_witness :
    ([strL "Application", strL "Shell"] : List Str) ≠ [] ∧
    (∀ w ∈ ([strL "Application", strL "Shell"] : List Str),
      capWord w = true) ∧
    digitWord (strL "1") = true ∧
    toPascalCase (nameToSlug
        (joinSep [' '] ([strL "Application", strL "Shell"] ++ [strL "1"])))
      = removeWs
          (joinSep [' '] ([strL "Application", strL "Shell"] ++ [strL "1"])) :=
  ⟨by decide, by decide, by decide,
    c6_slug_display_roundtrip [strL "Application", strL "Shell"] (strL "1")
      (by decide) (by decide) (by decide)⟩

end Scraper
